import Mathlib

/-!
Verification of the vision-detector sidecar (`src/priv/vision_detector.py`)
against its natural-language specification.

The embedding models Python floats as exact rationals `ℚ`, grayscale images
as lists of natural-valued pixel intensities, the detection engine as an
opaque producer of raw boxes, and the two concurrent control flows
(`listen_stdin` and `run`) as explicit folds over input schedules.
-/

namespace Vivino

/-- Python `int(x)` on a float: truncation toward zero. -/
def pyInt (x : ℚ) : ℤ := if 0 ≤ x then ⌊x⌋ else ⌈x⌉

/-- Round to the nearest integer, ties to even (Python 3 `round` semantics
on exact values). -/
def rndHalfEven (x : ℚ) : ℤ :=
  if x - ⌊x⌋ < 1 / 2 then ⌊x⌋
  else if 1 / 2 < x - ⌊x⌋ then ⌊x⌋ + 1
  else if ⌊x⌋ % 2 = 0 then ⌊x⌋ else ⌊x⌋ + 1

/-- Python `round(x, d)`: round-half-even at `d` decimal digits. -/
def pyRound (x : ℚ) (d : ℕ) : ℚ := (rndHalfEven (x * 10 ^ d) : ℚ) / 10 ^ d

/-- One raw box produced by the inference engine (`results[0].boxes` entry):
class id and name, raw confidence, and the four float `xyxy` coordinates. -/
structure RawBox where
  clsId : ℕ
  clsName : String
  confRaw : ℚ
  x1 : ℚ
  y1 : ℚ
  x2 : ℚ
  y2 : ℚ
  deriving DecidableEq

/-- One assembled detection record, as placed in the emitted event
(lines 90–95 of `vision_detector.py`). -/
structure Detection where
  cls : String
  conf : ℚ
  bbox : ℤ × ℤ × ℤ × ℤ
  area : ℤ
  deriving DecidableEq

/-- Assembly of one detection dict from a raw engine box: bbox coordinates
coerced with `int(...)`, `conf` rounded to 3 decimals, and `area` computed
as `int((x2 - x1) * (y2 - y1))` on the raw float coordinates. -/
def mkDetection (b : RawBox) : Detection :=
  { cls := b.clsName
    conf := pyRound b.confRaw 3
    bbox := (pyInt b.x1, pyInt b.y1, pyInt b.x2, pyInt b.y2)
    area := pyInt ((b.x2 - b.x1) * (b.y2 - b.y1)) }

/-- `cv2.absdiff` on two equally sized single-channel images, flattened to
pixel lists: elementwise absolute difference. -/
def absdiff (p g : List ℕ) : List ℕ :=
  List.zipWith (fun a b => max a b - min a b) p g

/-- `np.mean` of a pixel list, as an exact rational. -/
def npMean (l : List ℕ) : ℚ := (l.sum : ℚ) / (l.length : ℚ)

/-- Mutable state of a `VisionDetector` instance: the fields of `self`
assigned in `__init__` that the control loops read and write. -/
structure DetState where
  conf : ℚ
  target_classes : Option (List ℤ)
  running : Bool
  frame_count : ℕ
  prev_gray : Option (List ℕ)
  fps_ema : ℚ
  deriving DecidableEq

/-- `compute_motion`, acting on the stored previous smoothed grayscale and
the current frame's smoothed grayscale (the `cvtColor`/`GaussianBlur`
preprocessing is abstracted into the input list). Returns the new stored
representation and the score. -/
def compute_motion (prev : Option (List ℕ)) (gray : List ℕ) :
    Option (List ℕ) × ℚ :=
  match prev with
  | none => (some gray, 0)
  | some p => (some gray, npMean (absdiff p gray) / 255)

/-- The instantaneous rate `fps = 1.0 / elapsed if elapsed > 0 else 0`
(line 98). -/
def instRate (elapsed : ℚ) : ℚ := if 0 < elapsed then 1 / elapsed else 0

/-- The rate-estimate update (line 99):
`0.9 * fps_ema + 0.1 * fps if fps_ema > 0 else fps`. -/
def fps_update (ema elapsed : ℚ) : ℚ :=
  if 0 < ema then 9 / 10 * ema + 1 / 10 * instRate elapsed
  else instRate elapsed

/-- The rate estimate after feeding a sequence of elapsed-time samples to a
fresh detector (`fps_ema` initialized to `0.0`). -/
def estimateAfter (samples : List ℚ) : ℚ := samples.foldl fps_update 0

/-- One emitted per-frame event (the dict returned at lines 102–109). -/
structure FrameEvent where
  ts : ℤ
  fps : ℚ
  detections : List Detection
  motion : ℚ
  frame : ℕ
  inference_ms : ℚ
  deriving DecidableEq

/-- `process_frame` on one frame. Inputs: the detector state, the frame's
smoothed grayscale, the opaque engine output for this frame, the elapsed
inference time, and the wall-clock timestamp. Returns the updated state and
the assembled event. -/
def process_frame (st : DetState) (gray : List ℕ) (boxes : List RawBox)
    (elapsed : ℚ) (ts : ℤ) : DetState × FrameEvent :=
  let mo := compute_motion st.prev_gray gray
  let ema := fps_update st.fps_ema elapsed
  let fc := st.frame_count + 1
  ({ st with prev_gray := mo.1, fps_ema := ema, frame_count := fc },
   { ts := ts
     fps := pyRound ema 1
     detections := boxes.map mkDetection
     motion := pyRound mo.2 4
     frame := fc
     inference_ms := pyRound (elapsed * 1000) 1 })

/-- One stripped line of the command channel, classified as `listen_stdin`
does: `stop` when the line is exactly `STOP`; `conf v` when it starts with
`CONF:` and `v` is the result of `float(payload)` (`none` when it raises
`ValueError`); `classes v` likewise for `CLASSES:` with
`[int(c) for c in payload.split(",")]`; `other` for any other line. -/
inductive CmdLine where
  | stop
  | conf (v : Option ℚ)
  | classes (v : Option (List ℤ))
  | other
  deriving DecidableEq

/-- How the stdin iteration of `listen_stdin` ends: clean end-of-input, or
an exception raised while reading. -/
inductive StdinEnd where
  | eof
  | err
  deriving DecidableEq

/-- The body of `listen_stdin`'s `for` loop on one line: the updated state
and whether the loop continues (`false` on the `break` after `STOP`). -/
def listen_step (st : DetState) (c : CmdLine) : DetState × Bool :=
  match c with
  | .stop => ({ st with running := false }, false)
  | .conf (some v) => ({ st with conf := v }, true)
  | .conf none => (st, true)
  | .classes (some l) => ({ st with target_classes := some l }, true)
  | .classes none => (st, true)
  | .other => (st, true)

/-- `listen_stdin`: fold the loop body over the lines read from stdin; when
the lines are exhausted, a clean end-of-input just returns, while a read
failure falls into `except Exception: self.running = False`. -/
def listen_stdin (st : DetState) : List CmdLine → StdinEnd → DetState
  | [], .eof => st
  | [], .err => { st with running := false }
  | c :: rest, e =>
    let r := listen_step st c
    if r.2 then listen_stdin r.1 rest e else r.1

/-- One iteration's worth of external input to the `run` streaming loop:
`readFail` is `cap.read()` returning `ret = False`; `frame` is a successful
read together with the opaque per-frame data (`process_frame` inputs);
`frameRaises` is a frame on which the detection call raises;
`interrupt` is a `KeyboardInterrupt` delivered at this iteration.
An exhausted schedule models `self.running` being observed `False`. -/
inductive LoopInput where
  | readFail
  | frame (gray : List ℕ) (boxes : List RawBox) (elapsed : ℚ) (ts : ℤ)
  | frameRaises
  | interrupt
  deriving DecidableEq

/-- Observable actions of the `run` loop, in program order. -/
inductive Action where
  | emitEvent (e : FrameEvent)
  | emitDrop (frame : ℕ)
  | sleepSec (n : ℕ)
  | releaseCap
  | reopenCap
  | emitStopped
  deriving DecidableEq

/-- How the `while self.running` loop was left. -/
inductive ExitKind where
  | stopNormal
  | interrupted
  | raised
  deriving DecidableEq

/-- The `while self.running` loop of `run` (lines 146–159), folded over an
input schedule: emits actions, threads the detector state, and reports how
the loop exited. On a failed read it prints the `frame_drop` diagnostic,
sleeps 1 second, releases the capture, reopens it, and continues. -/
def stream_loop : DetState → List LoopInput → List Action × DetState × ExitKind
  | st, [] => ([], st, .stopNormal)
  | st, .interrupt :: _ => ([], st, .interrupted)
  | st, .frameRaises :: _ => ([], st, .raised)
  | st, .readFail :: rest =>
    let r := stream_loop st rest
    (Action.emitDrop st.frame_count :: Action.sleepSec 1 ::
       Action.releaseCap :: Action.reopenCap :: r.1, r.2)
  | st, .frame g b e t :: rest =>
    let p := process_frame st g b e t
    let r := stream_loop p.1 rest
    (Action.emitEvent p.2 :: r.1, r.2)

/-- `run`'s try/except-KeyboardInterrupt/finally around the streaming loop:
whatever way the loop is left — normal exit, `KeyboardInterrupt`, or an
exception propagating out of frame processing — the `finally` block
releases the capture and prints the `{"status":"stopped"}` line. -/
def run (st : DetState) (inputs : List LoopInput) :
    List Action × DetState × ExitKind :=
  let r := stream_loop st inputs
  (r.1 ++ [Action.releaseCap, Action.emitStopped], r.2)

/-- The frame indices of the per-frame events in an action trace, in
emission order. -/
def eventFrames : List Action → List ℕ
  | [] => []
  | .emitEvent e :: rest => e.frame :: eventFrames rest
  | _ :: rest => eventFrames rest

/-- The number of `frame_drop` diagnostics in an action trace. -/
def dropCount : List Action → ℕ
  | [] => 0
  | .emitDrop _ :: rest => dropCount rest + 1
  | _ :: rest => dropCount rest

/-- The number of frames the loop successfully processes on a schedule
(successful reads before the loop is left early). -/
def processedCount : List LoopInput → ℕ
  | [] => 0
  | .interrupt :: _ => 0
  | .frameRaises :: _ => 0
  | .readFail :: rest => processedCount rest
  | .frame _ _ _ _ :: rest => processedCount rest + 1

/-- The number of failed reads the loop encounters on a schedule. -/
def failCount : List LoopInput → ℕ
  | [] => 0
  | .interrupt :: _ => 0
  | .frameRaises :: _ => 0
  | .readFail :: rest => failCount rest + 1
  | .frame _ _ _ _ :: rest => failCount rest

/-- A fresh detector state with the default constructor arguments
(`conf=0.35`, no class filter, `running=True`, counters zeroed). -/
def st0 : DetState :=
  { conf := 35 / 100
    target_classes := none
    running := true
    frame_count := 0
    prev_gray := none
    fps_ema := 0 }

/-- A state that has already stored one all-black previous grayscale. -/
def stM : DetState := { st0 with prev_gray := some [0] }

/-!  ## Claims  -/

/-- Claim C1, as stated, is false: on a read failure (`StdinEnd.err`) the
listener does not leave `running` unchanged — with `running = true` before
the failure, `running` is `false` after the listener exits, because the
`except Exception` handler assigns `self.running = False`. -/
theorem stdin_err_running_changed_cex :
    st0.running = true ∧
    ¬ (listen_stdin st0 [] StdinEnd.err).running = true := by
  decide

/-- Claim C1 (amended): a read failure on the command channel makes the
listener exit with `running` set to `false` (it forces a stop); only a
clean end-of-input leaves `running` unchanged (when no `STOP` was read). -/
theorem stdin_err_forces_stop (st : DetState) (lines : List CmdLine) :
    (listen_stdin st lines StdinEnd.err).running = false ∧
    (CmdLine.stop ∉ lines →
      (listen_stdin st lines StdinEnd.eof).running = st.running) := by
  induction lines generalizing st with
  | nil => simp [listen_stdin]
  | cons c rest ih =>
    refine ⟨?_, ?_⟩
    · cases c with
      | stop => simp [listen_stdin, listen_step]
      | conf v =>
        cases v <;> simpa [listen_stdin, listen_step] using (ih _).1
      | classes v =>
        cases v <;> simpa [listen_stdin, listen_step] using (ih _).1
      | other => simpa [listen_stdin, listen_step] using (ih _).1
    · intro h
      rw [List.mem_cons, not_or] at h
      cases c with
      | stop => exact absurd rfl (Ne.symm h.1)
      | conf v =>
        cases v <;> simpa [listen_stdin, listen_step] using (ih _).2 h.2
      | classes v =>
        cases v <;> simpa [listen_stdin, listen_step] using (ih _).2 h.2
      | other => simpa [listen_stdin, listen_step] using (ih _).2 h.2

/-- Witness for the amended claim C1 at a concrete state and line list. -/
theorem stdin_err_forces_stop_witness :
    (listen_stdin st0 [CmdLine.other] StdinEnd.err).running = false ∧
    (listen_stdin st0 [CmdLine.other] StdinEnd.eof).running = st0.running := by
  refine ⟨(stdin_err_forces_stop st0 [CmdLine.other]).1,
    (stdin_err_forces_stop st0 [CmdLine.other]).2 ?_⟩
  decide

/-- Claim C2, as stated, is false: the motion field of an emitted event is
not the motion score rounded to 3 decimals. Concretely, with previous
grayscale `[0]` and current grayscale `[100]`, the score is `20/51` and the
emitted field is its 4-decimal rounding `0.3922`, not `0.392`. -/
theorem motion_rounded_to_four_decimals_cex :
    (process_frame stM [100] [] 1 0).2.motion ≠
      pyRound (compute_motion stM.prev_gray [100]).2 3 := by
  have hm : (compute_motion stM.prev_gray [100]).2 = 20 / 51 := by
    norm_num [stM, st0, compute_motion, npMean, absdiff]
  have hev : (process_frame stM [100] [] 1 0).2.motion =
      pyRound (compute_motion stM.prev_gray [100]).2 4 := rfl
  rw [hev, hm]
  have hf4 : ⌊(20 / 51 * 10 ^ 4 : ℚ)⌋ = 3921 := by
    rw [Int.floor_eq_iff]
    norm_num
  have hf3 : ⌊(20 / 51 * 10 ^ 3 : ℚ)⌋ = 392 := by
    rw [Int.floor_eq_iff]
    norm_num
  have h4 : rndHalfEven (20 / 51 * 10 ^ 4) = 3922 := by
    simp only [rndHalfEven, hf4]
    norm_num
  have h3 : rndHalfEven (20 / 51 * 10 ^ 3) = 392 := by
    simp only [rndHalfEven, hf3]
    norm_num
  simp only [pyRound, h4, h3]
  norm_num

/-- Claim C2 (amended): emitted numeric fields are rounded to fixed
precision — each detection's confidence to 3 decimals, the motion score to
4 decimals (not 3), and the fps and inference-time fields to 1 decimal. -/
theorem event_field_precisions (st : DetState) (g : List ℕ)
    (boxes : List RawBox) (e : ℚ) (t : ℤ) :
    (process_frame st g boxes e t).2.fps =
      pyRound (fps_update st.fps_ema e) 1 ∧
    (process_frame st g boxes e t).2.motion =
      pyRound (compute_motion st.prev_gray g).2 4 ∧
    (process_frame st g boxes e t).2.inference_ms = pyRound (e * 1000) 1 ∧
    (process_frame st g boxes e t).2.detections = boxes.map mkDetection ∧
    ∀ b : RawBox, (mkDetection b).conf = pyRound b.confRaw 3 :=
  ⟨rfl, rfl, rfl, rfl, fun _ => rfl⟩

/-- Claim C3, as stated, is false: after a sample with zero instantaneous
rate the estimate is still `0`, so the next sample re-seeds the estimate
instead of blending — with samples `[0, 1]` the estimate is `1`, not
`0.9 * 0 + 0.1 * 1 = 0.1`. -/
theorem rate_reseed_cex :
    estimateAfter [0, 1] ≠
      9 / 10 * estimateAfter [0] + 1 / 10 * instRate 1 := by
  norm_num [estimateAfter, fps_update, instRate]

/-- Claim C3 (amended): the instantaneous rate is `1/elapsed` when
`elapsed > 0` and `0` otherwise; a single sample seeds the estimate with
its instantaneous rate; a later sample blends `0.9·previous + 0.1·new`
precisely when the previous estimate is positive, and re-seeds with the
instantaneous rate when the previous estimate is `≤ 0` (the code tests
`fps_ema > 0`, not "first sample"); `process_frame` applies exactly this
update. -/
theorem rate_estimator_update (s : List ℚ) (e : ℚ) (st : DetState)
    (g : List ℕ) (boxes : List RawBox) (t : ℤ) :
    (0 < e → instRate e = 1 / e) ∧
    (e ≤ 0 → instRate e = 0) ∧
    (∀ a : ℚ, estimateAfter [a] = instRate a) ∧
    (0 < estimateAfter s →
      estimateAfter (s ++ [e]) =
        9 / 10 * estimateAfter s + 1 / 10 * instRate e) ∧
    (estimateAfter s ≤ 0 → estimateAfter (s ++ [e]) = instRate e) ∧
    (process_frame st g boxes e t).1.fps_ema = fps_update st.fps_ema e := by
  have happ : estimateAfter (s ++ [e]) = fps_update (estimateAfter s) e := by
    simp [estimateAfter, List.foldl_append]
  refine ⟨fun h => by simp [instRate, h], fun h => by
      simp [instRate, not_lt.mpr h],
    fun a => by simp [estimateAfter, fps_update, lt_irrefl], ?_, ?_, rfl⟩
  · intro h
    rw [happ]
    simp only [fps_update]
    rw [if_pos h]
  · intro h
    rw [happ]
    simp only [fps_update]
    rw [if_neg (not_lt.mpr h)]

/-- Witness for the amended claim C3: a positive first sample seeds, then
blends; a zero-rate prefix re-seeds. -/
theorem rate_estimator_update_witness :
    instRate (1 / 2) = 1 / (1 / 2) ∧
    estimateAfter ([1 / 2] ++ [1 / 4]) =
      9 / 10 * estimateAfter [1 / 2] + 1 / 10 * instRate (1 / 4) ∧
    estimateAfter ([0] ++ [1 / 4]) = instRate (1 / 4) := by
  refine ⟨(rate_estimator_update [] (1 / 2) st0 [] [] 0).1 (by norm_num),
    (rate_estimator_update [1 / 2] (1 / 4) st0 [] [] 0).2.2.2.1 ?_,
    (rate_estimator_update [0] (1 / 4) st0 [] [] 0).2.2.2.2.1 ?_⟩
  · norm_num [estimateAfter, fps_update, instRate]
  · norm_num [estimateAfter, fps_update, instRate]

/-- Claim C4: a malformed `CONF:`/`CLASSES:` payload or an unrecognized
command leaves the whole state (in particular `conf` and `target_classes`)
unchanged, does not break the loop, and the listener's result on the
remaining lines is as if the line had not been read. -/
theorem malformed_command_ignored (st : DetState) (c : CmdLine)
    (lines : List CmdLine) (e : StdinEnd)
    (h : c = CmdLine.conf none ∨ c = CmdLine.classes none ∨
      c = CmdLine.other) :
    (listen_step st c).1 = st ∧ (listen_step st c).2 = true ∧
    listen_stdin st (c :: lines) e = listen_stdin st lines e := by
  rcases h with h | h | h <;> subst h <;> exact ⟨rfl, rfl, rfl⟩

/-- Witness for claim C4 at a concrete malformed line. -/
theorem malformed_command_ignored_witness :
    (listen_step st0 (CmdLine.conf none)).1 = st0 ∧
    (listen_step st0 (CmdLine.conf none)).2 = true ∧
    listen_stdin st0 [CmdLine.conf none] StdinEnd.eof =
      listen_stdin st0 [] StdinEnd.eof :=
  malformed_command_ignored st0 (CmdLine.conf none) [] StdinEnd.eof
    (Or.inl rfl)

/-- Each absolute pixel difference is at most 255, so the sum is bounded by
255 times the length. -/
theorem absdiff_sum_le (p : List ℕ) :
    ∀ g : List ℕ, (∀ x ∈ p, x ≤ 255) → (∀ x ∈ g, x ≤ 255) →
      (absdiff p g).sum ≤ 255 * (absdiff p g).length := by
  induction p with
  | nil => intro g _ _; simp [absdiff]
  | cons a p ih =>
    intro g hp hg
    cases g with
    | nil => simp [absdiff]
    | cons b g =>
      have ha : a ≤ 255 := hp a (List.mem_cons_self a p)
      have hb : b ≤ 255 := hg b (List.mem_cons_self b g)
      have hrec := ih g (fun x hx => hp x (List.mem_cons_of_mem a hx))
        (fun x hx => hg x (List.mem_cons_of_mem b hx))
      have hd : max a b - min a b ≤ 255 :=
        le_trans (Nat.sub_le _ _) (max_le ha hb)
      have hcons : absdiff (a :: p) (b :: g) =
          (max a b - min a b) :: absdiff p g := rfl
      rw [hcons, List.sum_cons, List.length_cons, Nat.mul_succ]
      omega

/-- Claim C5: the motion scorer stores the frame and returns exactly `0` on
the first invocation, always replaces the stored representation with the
current frame's, and (for equally sized, nonempty, 8-bit-bounded frames)
every score lies in `[0, 1]`. -/
theorem motion_scorer_spec (prev : Option (List ℕ)) (p g : List ℕ)
    (hp : ∀ x ∈ p, x ≤ 255) (hg : ∀ x ∈ g, x ≤ 255)
    (hlen : p.length = g.length) (hne : g ≠ []) :
    compute_motion none g = (some g, 0) ∧
    (compute_motion prev g).1 = some g ∧
    0 ≤ (compute_motion (some p) g).2 ∧
    (compute_motion (some p) g).2 ≤ 1 := by
  have hlen' : (absdiff p g).length = g.length := by
    simp [absdiff, List.length_zipWith, hlen]
  have hlpos : 0 < (absdiff p g).length := by
    rw [hlen']
    exact List.length_pos.mpr hne
  have hsum := absdiff_sum_le p g hp hg
  have hmean : npMean (absdiff p g) ≤ 255 := by
    rw [npMean, div_le_iff₀ (by exact_mod_cast hlpos)]
    calc ((absdiff p g).sum : ℚ)
        ≤ ((255 * (absdiff p g).length : ℕ) : ℚ) := by exact_mod_cast hsum
      _ = 255 * ((absdiff p g).length : ℚ) := by push_cast; ring
  refine ⟨rfl, by cases prev <;> rfl, ?_, ?_⟩
  · show (0 : ℚ) ≤ npMean (absdiff p g) / 255
    rw [npMean]
    positivity
  · show npMean (absdiff p g) / 255 ≤ 1
    rw [div_le_one (by norm_num : (0 : ℚ) < 255)]
    exact hmean

/-- Witness for claim C5 at concrete one-pixel frames. -/
theorem motion_scorer_spec_witness :
    compute_motion none [100] = (some [100], 0) ∧
    (compute_motion (some [0]) [100]).1 = some [100] ∧
    0 ≤ (compute_motion (some [0]) [100]).2 ∧
    (compute_motion (some [0]) [100]).2 ≤ 1 :=
  motion_scorer_spec (some [0]) [0] [100] (by decide) (by decide) rfl
    (by decide)

/-- The frame indices emitted by the streaming loop from any starting state
are consecutive, starting right after the state's current counter. -/
theorem eventFrames_stream_loop (inputs : List LoopInput) :
    ∀ st : DetState, eventFrames (stream_loop st inputs).1 =
      List.range' (st.frame_count + 1) (processedCount inputs) := by
  induction inputs with
  | nil => intro st; simp [stream_loop, eventFrames, processedCount]
  | cons i rest ih =>
    intro st
    cases i with
    | readFail => simp [stream_loop, eventFrames, processedCount, ih]
    | frame g b e t =>
      simp [stream_loop, eventFrames, processedCount, ih, process_frame,
        List.range'_succ]
    | frameRaises => simp [stream_loop, eventFrames, processedCount]
    | interrupt => simp [stream_loop, eventFrames, processedCount]

/-- Claim C6: starting from a zeroed counter, the emitted frame indices
over any schedule (read failures, reconnects, and early exits included)
are exactly `1, 2, …, k` where `k` is the number of successfully processed
frames — the index starts at 1, increases by exactly 1 per emitted event,
is never incremented on a failed read, and is never reset by a reconnect. -/
theorem frame_index_no_gaps (st : DetState) (inputs : List LoopInput) :
    eventFrames (stream_loop { st with frame_count := 0 } inputs).1 =
      List.range' 1 (processedCount inputs) := by
  simpa using eventFrames_stream_loop inputs { st with frame_count := 0 }

/-- Claim C7, as stated, is false in its ordering of the recovery actions:
on a failed read the code sleeps 1 second before releasing the capture
(lines 149–154), so the per-failure action sequence is drop, sleep,
release, reopen — not drop, release, sleep, reopen. -/
theorem readfail_order_cex :
    (stream_loop st0 [LoopInput.readFail]).1 =
      [Action.emitDrop 0, Action.sleepSec 1, Action.releaseCap,
        Action.reopenCap] ∧
    (stream_loop st0 [LoopInput.readFail]).1 ≠
      [Action.emitDrop 0, Action.releaseCap, Action.sleepSec 1,
        Action.reopenCap] := by
  refine ⟨rfl, ?_⟩
  simp [stream_loop, st0]

/-- Exactly one `frame_drop` diagnostic is printed per failed read. -/
theorem dropCount_stream_loop (inputs : List LoopInput) :
    ∀ st : DetState, dropCount (stream_loop st inputs).1 = failCount inputs := by
  induction inputs with
  | nil => intro st; simp [stream_loop, dropCount, failCount]
  | cons i rest ih =>
    intro st
    cases i with
    | readFail => simp [stream_loop, dropCount, failCount, ih]
    | frame g b e t => simp [stream_loop, dropCount, failCount, ih]
    | frameRaises => simp [stream_loop, dropCount, failCount]
    | interrupt => simp [stream_loop, dropCount, failCount]

/-- Any number of consecutive failed reads leaves the loop's final state
and exit kind untouched. -/
theorem stream_loop_replicate_fail (n : ℕ) (st : DetState)
    (rest : List LoopInput) :
    (stream_loop st (List.replicate n LoopInput.readFail ++ rest)).2 =
      (stream_loop st rest).2 := by
  induction n with
  | zero => simp
  | succ k ih => simp [List.replicate_succ, stream_loop, ih]

/-- Claim C7 (amended): on every failed read the loop emits exactly one
`frame_drop` diagnostic carrying the current frame count, then pauses the
fixed 1-second interval, then releases and reopens the source, and stays
in the loop with its state unchanged; there is exactly one diagnostic per
failure over any schedule; any number of failures leaves the final state
and exit kind untouched, so the loop never exits because of read failures;
and processing resumes with the frame index continuing where it left off. -/
theorem readfail_retry (st : DetState) (rest inputs : List LoopInput)
    (n : ℕ) :
    stream_loop st (LoopInput.readFail :: rest) =
      (Action.emitDrop st.frame_count :: Action.sleepSec 1 ::
         Action.releaseCap :: Action.reopenCap :: (stream_loop st rest).1,
       (stream_loop st rest).2) ∧
    dropCount (stream_loop st inputs).1 = failCount inputs ∧
    (stream_loop st (List.replicate n LoopInput.readFail ++ rest)).2 =
      (stream_loop st rest).2 ∧
    eventFrames (stream_loop st (LoopInput.readFail :: rest)).1 =
      List.range' (st.frame_count + 1) (processedCount rest) := by
  refine ⟨rfl, dropCount_stream_loop inputs st,
    stream_loop_replicate_fail n st rest, ?_⟩
  simp [stream_loop, eventFrames, eventFrames_stream_loop rest st]

/-- The whole listener either preserves `running` or lowers it to
`false`. -/
theorem listen_stdin_running (lines : List CmdLine) :
    ∀ (st : DetState) (e : StdinEnd),
      (listen_stdin st lines e).running = st.running ∨
      (listen_stdin st lines e).running = false := by
  induction lines with
  | nil =>
    intro st e
    cases e with
    | eof => exact Or.inl rfl
    | err => exact Or.inr rfl
  | cons c rest ih =>
    intro st e
    cases c with
    | stop => exact Or.inr rfl
    | conf v =>
      cases v with
      | none => simpa [listen_stdin, listen_step] using ih st e
      | some x =>
        have h := ih { st with conf := x } e
        simpa [listen_stdin, listen_step] using h
    | classes v =>
      cases v with
      | none => simpa [listen_stdin, listen_step] using ih st e
      | some l =>
        have h := ih { st with target_classes := some l } e
        simpa [listen_stdin, listen_step] using h
    | other => simpa [listen_stdin, listen_step] using ih st e

/-- The streaming loop never writes `running`. -/
theorem stream_loop_running (inputs : List LoopInput) :
    ∀ st : DetState, (stream_loop st inputs).2.1.running = st.running := by
  induction inputs with
  | nil => intro st; rfl
  | cons i rest ih =>
    intro st
    cases i with
    | readFail => simpa [stream_loop] using ih st
    | frame g b e t =>
      have h := ih (process_frame st g b e t).1
      simpa [stream_loop, process_frame] using h
    | frameRaises => rfl
    | interrupt => rfl

/-- Claim C8: no step of the command listener or the streaming loop ever
assigns `running := true` — a listener step either preserves `running` or
sets it to `false`, the whole listener likewise, and the streaming loop
never writes `running` at all; hence `running` transitions from `true` to
`false` at most once and is never set back to `true`. -/
theorem running_never_set_true (st : DetState) (c : CmdLine)
    (lines : List CmdLine) (e : StdinEnd) (inputs : List LoopInput) :
    ((listen_step st c).1.running = st.running ∨
      (listen_step st c).1.running = false) ∧
    ((listen_stdin st lines e).running = st.running ∨
      (listen_stdin st lines e).running = false) ∧
    (stream_loop st inputs).2.1.running = st.running := by
  refine ⟨?_, listen_stdin_running lines st e, stream_loop_running inputs st⟩
  cases c with
  | stop => exact Or.inr rfl
  | conf v => cases v <;> exact Or.inl rfl
  | classes v => cases v <;> exact Or.inl rfl
  | other => exact Or.inl rfl

/-- A raw engine box whose coordinates are not integral. -/
def rb0 : RawBox :=
  { clsId := 0
    clsName := "person"
    confRaw := 9 / 10
    x1 := 0
    y1 := 0
    x2 := 3 / 2
    y2 := 2 }

/-- Claim C9, as stated, is false: `area` is computed from the raw float
coordinates, not from the integer-coerced bbox. For the raw box
`(0, 0, 1.5, 2)` the coerced bbox is `(0, 0, 1, 2)`, whose width×height is
`2`, but the emitted area is `int(1.5 * 2) = 3`. -/
theorem area_from_floats_cex :
    (mkDetection rb0).bbox = (0, 0, 1, 2) ∧
    (mkDetection rb0).area ≠ (1 - 0) * (2 - 0) := by
  have h32 : pyInt (3 / 2) = 1 := by
    rw [pyInt, if_pos (by norm_num), Int.floor_eq_iff]
    norm_num
  have h0 : pyInt 0 = 0 := by
    rw [pyInt, if_pos le_rfl, Int.floor_eq_iff]
    norm_num
  have h2 : pyInt 2 = 2 := by
    rw [pyInt, if_pos (by norm_num), Int.floor_eq_iff]
    norm_num
  have h3 : pyInt ((3 / 2 - 0) * (2 - 0)) = 3 := by
    rw [show ((3 / 2 - 0) * (2 - 0) : ℚ) = 3 by norm_num, pyInt,
      if_pos (by norm_num), Int.floor_eq_iff]
    norm_num
  constructor
  · show (pyInt rb0.x1, pyInt rb0.y1, pyInt rb0.x2, pyInt rb0.y2) =
      ((0 : ℤ), (0 : ℤ), (1 : ℤ), (2 : ℤ))
    rw [show rb0.x1 = 0 from rfl, show rb0.y1 = 0 from rfl,
      show rb0.x2 = 3 / 2 from rfl, show rb0.y2 = 2 from rfl, h0, h32, h2]
  · show pyInt ((rb0.x2 - rb0.x1) * (rb0.y2 - rb0.y1)) ≠ (1 - 0) * (2 - 0)
    rw [show rb0.x1 = 0 from rfl, show rb0.y1 = 0 from rfl,
      show rb0.x2 = 3 / 2 from rfl, show rb0.y2 = 2 from rfl, h3]
    norm_num

/-- Claim C9 (amended): the bbox coordinates are coerced with `int(...)`
(truncation toward zero), while `area` is the truncation of the product of
the raw float width and height — computed from the unrounded coordinates,
so it may differ from the product of the coerced ones — and it is a
non-negative integer whenever `x1 ≤ x2` and `y1 ≤ y2`. -/
theorem detection_bbox_area (b : RawBox) (hx : b.x1 ≤ b.x2)
    (hy : b.y1 ≤ b.y2) :
    (mkDetection b).bbox =
      (pyInt b.x1, pyInt b.y1, pyInt b.x2, pyInt b.y2) ∧
    (mkDetection b).area = pyInt ((b.x2 - b.x1) * (b.y2 - b.y1)) ∧
    0 ≤ (mkDetection b).area := by
  refine ⟨rfl, rfl, ?_⟩
  have hprod : 0 ≤ (b.x2 - b.x1) * (b.y2 - b.y1) :=
    mul_nonneg (sub_nonneg.mpr hx) (sub_nonneg.mpr hy)
  show 0 ≤ pyInt ((b.x2 - b.x1) * (b.y2 - b.y1))
  rw [pyInt, if_pos hprod]
  exact Int.floor_nonneg.mpr hprod

/-- Witness for the amended claim C9 at the concrete box `rb0`. -/
theorem detection_bbox_area_witness :
    (mkDetection rb0).bbox =
      (pyInt rb0.x1, pyInt rb0.y1, pyInt rb0.x2, pyInt rb0.y2) ∧
    (mkDetection rb0).area =
      pyInt ((rb0.x2 - rb0.x1) * (rb0.y2 - rb0.y1)) ∧
    0 ≤ (mkDetection rb0).area :=
  detection_bbox_area rb0 (by norm_num [rb0]) (by norm_num [rb0])

/-- Claim C10: every way the streaming loop terminates — the normal
observed-stop exit, a keyboard interrupt, or an exception propagating out
of frame processing (the fatal detection-failure path) — runs the
`finally` block, so the emitted trace always ends by releasing the capture
and printing the `{"status":"stopped"}` line; the three exits are reported
with their respective kinds. -/
theorem stopped_always_emitted (st : DetState) (inputs rest : List LoopInput) :
    (∃ tr, (run st inputs).1 =
      tr ++ [Action.releaseCap, Action.emitStopped]) ∧
    (run st (LoopInput.frameRaises :: rest)).1 =
      [Action.releaseCap, Action.emitStopped] ∧
    (run st (LoopInput.frameRaises :: rest)).2.2 = ExitKind.raised ∧
    (run st (LoopInput.interrupt :: rest)).2.2 = ExitKind.interrupted ∧
    (run st []).2.2 = ExitKind.stopNormal :=
  ⟨⟨(stream_loop st inputs).1, rfl⟩, rfl, rfl, rfl, rfl⟩

end Vivino
